import Mathlib

/-!
Shallow embedding of `scripts/plot.py`.

The script pools `(timestamp, value)` samples from every `*.csv` file in a
directory, converts bytes to megabytes, draws a combined memory/swap chart
with per-timestamp mean curves, and then draws one active/inactive chart per
file.  Sample values are modelled as rationals, a parsed CSV file as a list of
named columns, and the uncaught Python errors (missing column, unpacking an
empty `zip`) as `Option`/early-exit results.
-/

/-- A parsed CSV file: the path stem (the path minus the trailing `.csv`,
all globbed files end in `.csv`) and the named numeric columns produced by
the CSV reader. -/
structure CsvFile where
  stem : String
  cols : List (String × List ℚ)
deriving DecidableEq

/-- Column access `df[c]`: the first column named `c`, if any; `none` models
the uncaught error Python raises when the column is absent. -/
def getCol (f : CsvFile) (c : String) : Option (List ℚ) :=
  (f.cols.find? (fun p => p.1 == c)).map Prod.snd

/-- Byte-to-megabyte conversion `v / (1024 * 1024)` (plot.py lines 18-19 and 69-72). -/
def bytesToMB (v : ℚ) : ℚ := v / (1024 * 1024)

/-- The first loop (lines 15-21): pools `(timestamp, mem)` and `(timestamp, swap)`
points across all files in order, converting values to MB first.  `none` models the
uncaught error raised when a required column is missing from some file. -/
def loadLoop : List CsvFile → Option (List (ℚ × ℚ) × List (ℚ × ℚ))
  | [] => some ([], [])
  | f :: rest => do
    let ts ← getCol f "timestamp"
    let mem ← getCol f "current_memory_usage"
    let swap ← getCol f "current_swap_usage"
    let (ps, sps) ← loadLoop rest
    some (ts.zip (mem.map bytesToMB) ++ ps, ts.zip (swap.map bytesToMB) ++ sps)

/-- `x, y = zip(*points)` (lines 23-24): unpacking fails on an empty collection. -/
def unzipStar (pts : List (ℚ × ℚ)) : Option (List ℚ × List ℚ) :=
  match pts with
  | [] => none
  | _ :: _ => some pts.unzip

/-- One `defaultdict(list)` step `d[t].append(v)` (lines 31-33 and 47-49). -/
def dictAppend : List (ℚ × List ℚ) → ℚ → ℚ → List (ℚ × List ℚ)
  | [], t, v => [(t, [v])]
  | (k, vs) :: rest, t, v =>
    if k = t then (k, vs ++ [v]) :: rest else (k, vs) :: dictAppend rest t v

/-- The grouping dict built by looping over the pooled points. -/
def buildDict (pts : List (ℚ × ℚ)) : List (ℚ × List ℚ) :=
  pts.foldl (fun d p => dictAppend d p.1 p.2) []

/-- `d[t]` on the built dict (empty when the key is absent, which never
happens for the keys the script iterates over). -/
def dictGet (d : List (ℚ × List ℚ)) (t : ℚ) : List ℚ :=
  ((d.find? (fun p => p.1 == t)).map Prod.snd).getD []

/-- `d.keys()`, in insertion order. -/
def dictKeys (d : List (ℚ × List ℚ)) : List ℚ := d.map Prod.fst

/-- Lines 31-35 (and 47-51): group the pooled samples by exact timestamp via a
`defaultdict`, sort the keys ascending, and take `sum(...)/len(...)` of each group. -/
def meanByTimestamp (pts : List (ℚ × ℚ)) : List (ℚ × ℚ) :=
  let d := buildDict pts
  (List.insertionSort (· ≤ ·) (dictKeys d)).map
    (fun t => (t, (dictGet d t).sum / ((dictGet d t).length : ℚ)))

/-- The values of the group of pooled samples whose timestamp is exactly `t`. -/
def groupValues (pts : List (ℚ × ℚ)) (t : ℚ) : List ℚ :=
  (pts.filter (fun p => p.1 == t)).map Prod.snd

/-- Spec-side aggregation, following the specification's words (§4.2): group
samples by exact timestamp value, compute the unweighted arithmetic mean
(sum of group values divided by group size) per group, and return the
`(timestamp, mean)` pairs sorted by ascending timestamp. -/
def meanByTimestampSpec (pts : List (ℚ × ℚ)) : List (ℚ × ℚ) :=
  (List.insertionSort (· ≤ ·) ((pts.map Prod.fst).dedup)).map
    (fun t => (t, (groupValues pts t).sum / ((groupValues pts t).length : ℚ)))

/-- The mean memory series of the combined chart, when loading succeeds. -/
def memMeanSeries (files : List CsvFile) : Option (List (ℚ × ℚ)) :=
  (loadLoop files).map (fun ps => meanByTimestamp ps.1)

/-- The mean swap series of the combined chart, when loading succeeds. -/
def swapMeanSeries (files : List CsvFile) : Option (List (ℚ × ℚ)) :=
  (loadLoop files).map (fun ps => meanByTimestamp ps.2)

/-- `os.path.join(csv_dir, "mem_swap_vs_time.png")` (line 62). -/
def memSwapImg (dir : String) : String := dir ++ "/mem_swap_vs_time.png"

/-- `os.path.splitext(csv_file)[0] + "_active_inactive.png"` (line 86). -/
def activeInactiveImg (f : CsvFile) : String := f.stem ++ "_active_inactive.png"

/-- The four MB-converted series (plus timestamps) of a per-file chart (lines 67-72). -/
structure ActiveData where
  timestamps : List ℚ
  active_anon : List ℚ
  inactive_anon : List ℚ
  activeFileCol : List ℚ
  inactiveFileCol : List ℚ
deriving DecidableEq

/-- Per-file chart data (lines 67-72); `none` models the uncaught error on a
missing column. -/
def perFileData (f : CsvFile) : Option ActiveData := do
  let ts ← getCol f "timestamp"
  let aa ← getCol f "active_anon"
  let ia ← getCol f "inactive_anon"
  let af ← getCol f "active_file"
  let ifl ← getCol f "inactive_file"
  some ⟨ts, aa.map bytesToMB, ia.map bytesToMB, af.map bytesToMB, ifl.map bytesToMB⟩

/-- Outcome of a run: the image files persisted to disk, in the order they
were written, and whether the run finished without an uncaught error. -/
structure RunResult where
  written : List String
  ok : Bool
deriving DecidableEq

/-- The second loop (lines 66-88): writes one active/inactive image per file,
dying with an uncaught error at the first file with a missing column; images
already written persist. -/
def perFileLoop : List CsvFile → List String → RunResult
  | [], written => ⟨written, true⟩
  | f :: rest, written =>
    match perFileData f with
    | some _ => perFileLoop rest (written ++ [activeInactiveImg f])
    | none => ⟨written, false⟩

/-- The whole script: pool the samples, run the combined chart (whose
`zip(*...)` unpacks fail on empty pools), save `mem_swap_vs_time.png`, then run
the per-file loop. -/
def runScript (dir : String) (files : List CsvFile) : RunResult :=
  match loadLoop files with
  | none => ⟨[], false⟩
  | some (pts, spts) =>
    match unzipStar pts with
    | none => ⟨[], false⟩
    | some _ =>
      match unzipStar spts with
      | none => ⟨[], false⟩
      | some _ => perFileLoop files [memSwapImg dir]

/-- The seven columns the script reads from every file. -/
def requiredCols : List String :=
  ["timestamp", "current_memory_usage", "current_swap_usage",
   "active_anon", "inactive_anon", "active_file", "inactive_file"]

/-- A CSV reader yields columns of equal length (the file is rectangular). -/
def Rectangular (f : CsvFile) : Prop :=
  ∀ c₁ ∈ f.cols, ∀ c₂ ∈ f.cols, c₁.2.length = c₂.2.length

/-- The memory points a single file contributes to the pool, when its columns
are present. -/
def memContrib (f : CsvFile) : List (ℚ × ℚ) :=
  ((getCol f "timestamp").getD []).zip
    (((getCol f "current_memory_usage").getD []).map bytesToMB)

/-- The swap points a single file contributes to the pool, when its columns
are present. -/
def swapContrib (f : CsvFile) : List (ℚ × ℚ) :=
  ((getCol f "timestamp").getD []).zip
    (((getCol f "current_swap_usage").getD []).map bytesToMB)

/-- Whether the three columns read by the pooling loop are all present. -/
def colsOk (f : CsvFile) : Bool :=
  (getCol f "timestamp").isSome && (getCol f "current_memory_usage").isSome &&
    (getCol f "current_swap_usage").isSome

/-- Concrete file of the specification's two-row scenario. -/
def twoRowFile : CsvFile :=
  ⟨"run1",
   [("timestamp", [0, 1]),
    ("current_memory_usage", [1048576, 2097152]),
    ("current_swap_usage", [0, 1048576]),
    ("active_anon", [0, 0]),
    ("inactive_anon", [0, 0]),
    ("active_file", [0, 0]),
    ("inactive_file", [0, 0])]⟩

/-- Concrete file with all seven columns present but zero data rows. -/
def emptyRowsFile : CsvFile :=
  ⟨"empty",
   [("timestamp", []),
    ("current_memory_usage", []),
    ("current_swap_usage", []),
    ("active_anon", []),
    ("inactive_anon", []),
    ("active_file", []),
    ("inactive_file", [])]⟩

/-- Concrete file whose `active_anon` column is missing. -/
def noAnonFile : CsvFile :=
  ⟨"broken",
   [("timestamp", [0]),
    ("current_memory_usage", [2097152]),
    ("current_swap_usage", [1048576]),
    ("inactive_anon", [0]),
    ("active_file", [0]),
    ("inactive_file", [0])]⟩

/-- A second well-formed concrete file, for the order-independence witness. -/
def otherFile : CsvFile :=
  ⟨"run2",
   [("timestamp", [0, 2]),
    ("current_memory_usage", [3145728, 1048576]),
    ("current_swap_usage", [1048576, 0]),
    ("active_anon", [0, 0]),
    ("inactive_anon", [0, 0]),
    ("active_file", [0, 0]),
    ("inactive_file", [0, 0])]⟩

/-! ### Properties of the grouping dict -/

theorem dictGet_nil (u : ℚ) : dictGet [] u = [] := rfl

theorem dictGet_cons (k : ℚ) (vs : List ℚ) (rest : List (ℚ × List ℚ)) (u : ℚ) :
    dictGet ((k, vs) :: rest) u = if k = u then vs else dictGet rest u := by
  by_cases h : k = u <;> simp [dictGet, List.find?, beq_eq_decide, h]

theorem dictGet_dictAppend (t v u : ℚ) :
    ∀ d : List (ℚ × List ℚ),
      dictGet (dictAppend d t v) u = if u = t then dictGet d u ++ [v] else dictGet d u
  | [] => by
    by_cases h : u = t
    · simp [dictAppend, dictGet_cons, dictGet_nil, h]
    · simp [dictAppend, dictGet_cons, dictGet_nil, h, Ne.symm h]
  | (k, vs) :: rest => by
    by_cases hkt : k = t
    · subst hkt
      by_cases h : u = k
      · simp [dictAppend, dictGet_cons, h]
      · simp [dictAppend, dictGet_cons, h, Ne.symm h]
    · by_cases hku : k = u
      · have hut : ¬u = t := fun hh => hkt (hku.trans hh)
        simp [dictAppend, hkt, dictGet_cons, hku, hut, dictGet_dictAppend t v u rest]
      · simp [dictAppend, hkt, dictGet_cons, hku, dictGet_dictAppend t v u rest]

theorem dictGet_foldl (u : ℚ) :
    ∀ (pts : List (ℚ × ℚ)) (d : List (ℚ × List ℚ)),
      dictGet (pts.foldl (fun d p => dictAppend d p.1 p.2) d) u
        = dictGet d u ++ groupValues pts u
  | [], d => by simp [groupValues]
  | p :: rest, d => by
    rw [List.foldl_cons, dictGet_foldl u rest (dictAppend d p.1 p.2),
      dictGet_dictAppend p.1 p.2 u d]
    by_cases h : u = p.1
    · simp [h, groupValues, List.filter, beq_eq_decide, List.append_assoc]
    · have h' : ¬p.1 = u := fun hh => h hh.symm
      simp [h, groupValues, List.filter, beq_eq_decide, h']

theorem dictGet_buildDict (pts : List (ℚ × ℚ)) (u : ℚ) :
    dictGet (buildDict pts) u = groupValues pts u := by
  simpa using dictGet_foldl u pts []

theorem dictKeys_dictAppend (t v : ℚ) :
    ∀ d : List (ℚ × List ℚ),
      dictKeys (dictAppend d t v)
        = if t ∈ dictKeys d then dictKeys d else dictKeys d ++ [t]
  | [] => by simp [dictAppend, dictKeys]
  | (k, vs) :: rest => by
    by_cases h : k = t
    · subst h; simp [dictAppend, dictKeys]
    · have hne : ¬t = k := fun hh => h hh.symm
      have hcons : dictKeys ((k, vs) :: dictAppend rest t v)
          = k :: dictKeys (dictAppend rest t v) := rfl
      have hc2 : dictKeys ((k, vs) :: rest) = k :: dictKeys rest := rfl
      simp only [dictAppend, if_neg h]
      rw [hcons, dictKeys_dictAppend t v rest, hc2]
      by_cases hm : t ∈ dictKeys rest
      · simp [hm, List.mem_cons]
      · simp [hm, hne, List.mem_cons]

theorem mem_dictKeys_foldl (u : ℚ) :
    ∀ (pts : List (ℚ × ℚ)) (d : List (ℚ × List ℚ)),
      u ∈ dictKeys (pts.foldl (fun d p => dictAppend d p.1 p.2) d)
        ↔ u ∈ dictKeys d ∨ u ∈ pts.map Prod.fst
  | [], d => by simp
  | p :: rest, d => by
    rw [List.foldl_cons, mem_dictKeys_foldl u rest (dictAppend d p.1 p.2),
      dictKeys_dictAppend]
    by_cases hm : p.1 ∈ dictKeys d
    · simp only [if_pos hm, List.map_cons, List.mem_cons]
      constructor
      · rintro (h | h)
        · exact Or.inl h
        · exact Or.inr (Or.inr h)
      · rintro (h | h | h)
        · exact Or.inl h
        · exact Or.inl (h ▸ hm)
        · exact Or.inr h
    · simp only [if_neg hm, List.mem_append, List.mem_singleton, List.map_cons,
        List.mem_cons]
      tauto

theorem nodup_dictKeys_foldl :
    ∀ (pts : List (ℚ × ℚ)) (d : List (ℚ × List ℚ)),
      (dictKeys d).Nodup →
        (dictKeys (pts.foldl (fun d p => dictAppend d p.1 p.2) d)).Nodup
  | [], _, h => h
  | p :: rest, d, h => by
    rw [List.foldl_cons]
    refine nodup_dictKeys_foldl rest _ ?_
    rw [dictKeys_dictAppend]
    by_cases hm : p.1 ∈ dictKeys d
    · simpa [hm] using h
    · simp [hm, List.nodup_append, h]

theorem nodup_dictKeys_buildDict (pts : List (ℚ × ℚ)) :
    (dictKeys (buildDict pts)).Nodup :=
  nodup_dictKeys_foldl pts [] (by simp [dictKeys])

theorem mem_dictKeys_buildDict (pts : List (ℚ × ℚ)) (u : ℚ) :
    u ∈ dictKeys (buildDict pts) ↔ u ∈ pts.map Prod.fst := by
  rw [buildDict, mem_dictKeys_foldl]
  simp [dictKeys]

/-! ### The dict-based aggregation coincides with the spec-side aggregation -/

theorem sortedKeys_buildDict (pts : List (ℚ × ℚ)) :
    List.insertionSort (· ≤ ·) (dictKeys (buildDict pts))
      = List.insertionSort (· ≤ ·) ((pts.map Prod.fst).dedup) := by
  refine List.eq_of_perm_of_sorted ?_ (List.sorted_insertionSort _ _)
    (List.sorted_insertionSort _ _)
  refine (List.perm_insertionSort _ _).trans (List.Perm.trans ?_
    (List.perm_insertionSort _ _).symm)
  refine (List.perm_ext_iff_of_nodup (nodup_dictKeys_buildDict pts)
    (List.nodup_dedup _)).2 fun a => ?_
  rw [mem_dictKeys_buildDict, List.mem_dedup]

theorem meanByTimestamp_eq_spec (pts : List (ℚ × ℚ)) :
    meanByTimestamp pts = meanByTimestampSpec pts := by
  rw [meanByTimestamp, meanByTimestampSpec, sortedKeys_buildDict]
  exact List.map_congr_left fun t _ => by rw [dictGet_buildDict]

theorem map_fst_meanByTimestamp (pts : List (ℚ × ℚ)) :
    (meanByTimestamp pts).map Prod.fst
      = List.insertionSort (· ≤ ·) (dictKeys (buildDict pts)) := by
  rw [meanByTimestamp, List.map_map]
  exact (List.map_congr_left fun a _ => rfl).trans (List.map_id _)

theorem sorted_lt_meanByTimestamp (pts : List (ℚ × ℚ)) :
    ((meanByTimestamp pts).map Prod.fst).Sorted (· < ·) := by
  rw [map_fst_meanByTimestamp]
  have hs := List.sorted_insertionSort (· ≤ ·) (dictKeys (buildDict pts))
  have hn : (List.insertionSort (· ≤ ·) (dictKeys (buildDict pts))).Nodup :=
    (List.perm_insertionSort _ _).nodup_iff.2 (nodup_dictKeys_buildDict pts)
  exact hs.lt_of_le hn

theorem mem_map_fst_meanByTimestamp (pts : List (ℚ × ℚ)) (t : ℚ) :
    t ∈ (meanByTimestamp pts).map Prod.fst ↔ t ∈ pts.map Prod.fst := by
  rw [map_fst_meanByTimestamp, (List.perm_insertionSort _ _).mem_iff,
    mem_dictKeys_buildDict]

theorem groupValues_perm {p₁ p₂ : List (ℚ × ℚ)} (h : List.Perm p₁ p₂) (t : ℚ) :
    List.Perm (groupValues p₁ t) (groupValues p₂ t) :=
  (h.filter _).map _

theorem meanByTimestamp_perm {p₁ p₂ : List (ℚ × ℚ)} (h : List.Perm p₁ p₂) :
    meanByTimestamp p₁ = meanByTimestamp p₂ := by
  rw [meanByTimestamp_eq_spec, meanByTimestamp_eq_spec, meanByTimestampSpec,
    meanByTimestampSpec]
  have hkeys : List.insertionSort (· ≤ ·) ((p₁.map Prod.fst).dedup)
      = List.insertionSort (· ≤ ·) ((p₂.map Prod.fst).dedup) :=
    List.eq_of_perm_of_sorted
      ((List.perm_insertionSort _ _).trans (((h.map Prod.fst).dedup).trans
        (List.perm_insertionSort _ _).symm))
      (List.sorted_insertionSort _ _) (List.sorted_insertionSort _ _)
  rw [hkeys]
  refine List.map_congr_left fun t _ => ?_
  rw [(groupValues_perm h t).sum_eq, (groupValues_perm h t).length_eq]

/-! ### The pooling loop -/

theorem loadLoop_of_colsOk :
    ∀ files : List CsvFile, (∀ f ∈ files, colsOk f = true) →
      loadLoop files = some (files.flatMap memContrib, files.flatMap swapContrib)
  | [], _ => by simp [loadLoop]
  | f :: rest, h => by
    have hf := h f (List.mem_cons_self f rest)
    simp only [colsOk, Bool.and_eq_true, Option.isSome_iff_exists] at hf
    obtain ⟨⟨⟨ts, hts⟩, mem, hmem⟩, swap, hswap⟩ := hf
    have ih := loadLoop_of_colsOk rest fun g hg => h g (List.mem_cons_of_mem f hg)
    simp [loadLoop, hts, hmem, hswap, ih, memContrib, swapContrib]

theorem colsOk_of_loadLoop :
    ∀ (files : List CsvFile) (res : List (ℚ × ℚ) × List (ℚ × ℚ)),
      loadLoop files = some res → ∀ f ∈ files, colsOk f = true
  | [], _, _, f, hf => absurd hf (List.not_mem_nil f)
  | g :: rest, res, h, f, hf => by
    rw [loadLoop] at h
    cases h1 : getCol g "timestamp" <;> rw [h1] at h
    case none => simp at h
    case some ts =>
    cases h2 : getCol g "current_memory_usage" <;> rw [h2] at h
    case none => simp at h
    case some mem =>
    cases h3 : getCol g "current_swap_usage" <;> rw [h3] at h
    case none => simp at h
    case some swap =>
    cases h4 : loadLoop rest <;> rw [h4] at h
    case none => simp at h
    case some pr =>
    rcases List.mem_cons.1 hf with rfl | hf'
    · simp [colsOk, h1, h2, h3]
    · exact colsOk_of_loadLoop rest pr h4 f hf'

/-! ### The per-file chart loop and the whole run -/

theorem perFileLoop_written :
    ∀ (files : List CsvFile) (acc : List String),
      ∃ ext, (perFileLoop files acc).written = acc ++ ext
  | [], acc => ⟨[], by simp [perFileLoop]⟩
  | f :: rest, acc => by
    cases hf : perFileData f
    · exact ⟨[], by simp [perFileLoop, hf]⟩
    · obtain ⟨ext, hext⟩ := perFileLoop_written rest (acc ++ [activeInactiveImg f])
      exact ⟨activeInactiveImg f :: ext, by simp [perFileLoop, hf, hext]⟩

theorem perFileLoop_ok_written :
    ∀ (files : List CsvFile) (acc : List String),
      (perFileLoop files acc).ok = true →
      (perFileLoop files acc).written = acc ++ files.map activeInactiveImg
  | [], acc, _ => by simp [perFileLoop]
  | f :: rest, acc, h => by
    cases hf : perFileData f
    · rw [perFileLoop, hf] at h
      cases h
    · rw [perFileLoop, hf] at h ⊢
      rw [perFileLoop_ok_written rest _ h]
      simp

theorem perFileLoop_ok_false :
    ∀ (files : List CsvFile) (acc : List String) (f : CsvFile),
      f ∈ files → perFileData f = none → (perFileLoop files acc).ok = false
  | [], _, f, hmem, _ => absurd hmem (List.not_mem_nil f)
  | g :: rest, acc, f, hmem, hnone => by
    cases hg : perFileData g
    · simp [perFileLoop, hg]
    · rcases List.mem_cons.1 hmem with rfl | hmem'
      · rw [hnone] at hg
        cases hg
      · rw [perFileLoop, hg]
        exact perFileLoop_ok_false rest _ f hmem' hnone

theorem perFileData_none_of_missing (f : CsvFile) (c : String)
    (hc : c ∈ ["timestamp", "active_anon", "inactive_anon", "active_file",
      "inactive_file"])
    (h : getCol f c = none) : perFileData f = none := by
  simp only [List.mem_cons, List.not_mem_nil, or_false] at hc
  rcases hc with rfl | rfl | rfl | rfl | rfl
  · simp [perFileData, h]
  · cases h1 : getCol f "timestamp" <;> simp [perFileData, h, h1]
  · cases h1 : getCol f "timestamp" <;> cases h2 : getCol f "active_anon" <;>
      simp [perFileData, h, h1, h2]
  · cases h1 : getCol f "timestamp" <;> cases h2 : getCol f "active_anon" <;>
      cases h3 : getCol f "inactive_anon" <;> simp [perFileData, h, h1, h2, h3]
  · cases h1 : getCol f "timestamp" <;> cases h2 : getCol f "active_anon" <;>
      cases h3 : getCol f "inactive_anon" <;> cases h4 : getCol f "active_file" <;>
      simp [perFileData, h, h1, h2, h3, h4]

theorem runScript_eq_perFileLoop (dir : String) (files : List CsvFile)
    (pts spts : List (ℚ × ℚ)) (h : loadLoop files = some (pts, spts))
    (hp : pts ≠ []) (hs : spts ≠ []) :
    runScript dir files = perFileLoop files [memSwapImg dir] := by
  rw [runScript, h]
  cases pts with
  | nil => exact absurd rfl hp
  | cons a l =>
    cases spts with
    | nil => exact absurd rfl hs
    | cons b m => simp [unzipStar]

theorem runScript_of_load_none (dir : String) (files : List CsvFile)
    (h : loadLoop files = none) : runScript dir files = ⟨[], false⟩ := by
  rw [runScript, h]

theorem runScript_of_empty (dir : String) (files : List CsvFile)
    (pts spts : List (ℚ × ℚ)) (h : loadLoop files = some (pts, spts))
    (he : pts = [] ∨ spts = []) : runScript dir files = ⟨[], false⟩ := by
  rw [runScript, h]
  rcases he with rfl | rfl
  · rfl
  · cases pts with
    | nil => rfl
    | cons a l => simp [unzipStar]

theorem mem_cols_of_getCol {f : CsvFile} {c : String} {l : List ℚ}
    (h : getCol f c = some l) : (c, l) ∈ f.cols := by
  rw [getCol] at h
  cases hf : f.cols.find? (fun p => p.1 == c) with
  | none => rw [hf] at h; cases h
  | some val =>
    rw [hf] at h
    have hmem := List.mem_of_find?_eq_some hf
    have hc : val.1 = c := by
      have hpred := List.find?_some hf
      simpa using hpred
    have hl : val.2 = l := by simpa using h
    have : val = (c, l) := Prod.ext hc hl
    rwa [this] at hmem

theorem loadLoop_length :
    ∀ (files : List CsvFile) (pts spts : List (ℚ × ℚ)),
      (∀ f ∈ files, Rectangular f) → loadLoop files = some (pts, spts) →
      pts.length = spts.length
  | [], pts, spts, _, h => by
    simp only [loadLoop, Option.some.injEq, Prod.mk.injEq] at h
    rw [← h.1, ← h.2]
  | f :: rest, pts, spts, hrect, h => by
    rw [loadLoop] at h
    cases h1 : getCol f "timestamp" <;> rw [h1] at h
    case none => simp at h
    case some ts =>
    cases h2 : getCol f "current_memory_usage" <;> rw [h2] at h
    case none => simp at h
    case some mem =>
    cases h3 : getCol f "current_swap_usage" <;> rw [h3] at h
    case none => simp at h
    case some swap =>
    cases h4 : loadLoop rest <;> rw [h4] at h
    case none => simp at h
    case some pr =>
    obtain ⟨ps, sps⟩ := pr
    simp only [Option.bind_eq_bind, Option.some_bind, Option.some.injEq,
      Prod.mk.injEq] at h
    obtain ⟨hp, hs⟩ := h
    have hmemlen : mem.length = ts.length :=
      hrect f (List.mem_cons_self f rest) _ (mem_cols_of_getCol h2) _
        (mem_cols_of_getCol h1)
    have hswaplen : swap.length = ts.length :=
      hrect f (List.mem_cons_self f rest) _ (mem_cols_of_getCol h3) _
        (mem_cols_of_getCol h1)
    have ih := loadLoop_length rest ps sps
      (fun g hg => hrect g (List.mem_cons_of_mem f hg)) h4
    rw [← hp, ← hs]
    simp [List.length_zip, hmemlen, hswaplen, ih]

/-! ### Claims -/

/-- C1: the aggregation groups pooled samples by exact timestamp value (no
binning), computes the unweighted arithmetic mean (group sum divided by group
size) per group, and returns the `(timestamp, mean)` pairs sorted by strictly
ascending timestamp; it is applied independently to the pooled memory samples
and the pooled swap samples of the combined chart. -/
theorem mean_aggregation_matches_spec :
    (∀ pts : List (ℚ × ℚ), meanByTimestamp pts = meanByTimestampSpec pts)
    ∧ (∀ pts : List (ℚ × ℚ),
        ((meanByTimestamp pts).map Prod.fst).Sorted (· < ·))
    ∧ (∀ files : List CsvFile,
        memMeanSeries files
          = (loadLoop files).map (fun ps => meanByTimestampSpec ps.1))
    ∧ (∀ files : List CsvFile,
        swapMeanSeries files
          = (loadLoop files).map (fun ps => meanByTimestampSpec ps.2)) := by
  refine ⟨meanByTimestamp_eq_spec, sorted_lt_meanByTimestamp, fun files => ?_,
    fun files => ?_⟩
  · rw [memMeanSeries]
    exact congrArg (fun g => Option.map g (loadLoop files))
      (funext fun ps => meanByTimestamp_eq_spec ps.1)
  · rw [swapMeanSeries]
    exact congrArg (fun g => Option.map g (loadLoop files))
      (funext fun ps => meanByTimestamp_eq_spec ps.2)

/-- C2: one CSV with rows `(t=0, mem=1048576, swap=0, ...)` and
`(t=1, mem=2097152, swap=1048576, ...)` yields the combined-chart mean memory
series `[(0, 1), (1, 2)]` and mean swap series `[(0, 0), (1, 1)]` (in MB). -/
theorem two_row_scenario :
    memMeanSeries [twoRowFile] = some [(0, 1), (1, 2)]
    ∧ swapMeanSeries [twoRowFile] = some [(0, 0), (1, 1)] := by
  have h1 : getCol twoRowFile "timestamp" = some [0, 1] := by decide
  have h2 : getCol twoRowFile "current_memory_usage" = some [1048576, 2097152] := by
    decide
  have h3 : getCol twoRowFile "current_swap_usage" = some [0, 1048576] := by decide
  constructor
  · norm_num [memMeanSeries, loadLoop, h1, h2, h3, meanByTimestamp, buildDict,
      dictAppend, dictGet, dictKeys, bytesToMB, List.insertionSort,
      List.orderedInsert, List.find?, beq_eq_decide]
  · norm_num [swapMeanSeries, loadLoop, h1, h2, h3, meanByTimestamp, buildDict,
      dictAppend, dictGet, dictKeys, bytesToMB, List.insertionSort,
      List.orderedInsert, List.find?, beq_eq_decide]

/-- C3: the unit conversion is division by `1024 * 1024` (so raw `1048576`
becomes exactly `1` MB), and it is applied to each file's column values before
the samples are pooled or aggregated: the pooled points of a loaded file are
exactly the zipped raw rows with `bytesToMB` applied to the value component,
and the per-file chart series are the raw columns mapped through `bytesToMB`. -/
theorem conversion_before_pooling (f : CsvFile) (rest : List CsvFile)
    (pts spts : List (ℚ × ℚ)) (d : ActiveData)
    (hload : loadLoop (f :: rest) = some (pts, spts))
    (hdata : perFileData f = some d) :
    bytesToMB 1048576 = 1
    ∧ (∀ v : ℚ, bytesToMB v = v / (1024 * 1024))
    ∧ (∃ ts mem swap pr sr,
        getCol f "timestamp" = some ts
        ∧ getCol f "current_memory_usage" = some mem
        ∧ getCol f "current_swap_usage" = some swap
        ∧ loadLoop rest = some (pr, sr)
        ∧ pts = (ts.zip mem).map (fun p => (p.1, bytesToMB p.2)) ++ pr
        ∧ spts = (ts.zip swap).map (fun p => (p.1, bytesToMB p.2)) ++ sr)
    ∧ (∃ aa, getCol f "active_anon" = some aa ∧ d.active_anon = aa.map bytesToMB) := by
  have hzip : ∀ l₁ l₂ : List ℚ, l₁.zip (l₂.map bytesToMB)
      = (l₁.zip l₂).map (fun p => (p.1, bytesToMB p.2)) := fun l₁ l₂ => by
    rw [List.zip_map_right]
    exact List.map_congr_left fun p _ => rfl
  refine ⟨by norm_num [bytesToMB], fun v => rfl, ?_, ?_⟩
  · rw [loadLoop] at hload
    cases h1 : getCol f "timestamp" <;> rw [h1] at hload
    case none => simp at hload
    case some ts =>
    cases h2 : getCol f "current_memory_usage" <;> rw [h2] at hload
    case none => simp at hload
    case some mem =>
    cases h3 : getCol f "current_swap_usage" <;> rw [h3] at hload
    case none => simp at hload
    case some swap =>
    cases h4 : loadLoop rest <;> rw [h4] at hload
    case none => simp at hload
    case some pr =>
    obtain ⟨ps, sps⟩ := pr
    simp only [Option.bind_eq_bind, Option.some_bind, Option.some.injEq,
      Prod.mk.injEq] at hload
    obtain ⟨hp, hs⟩ := hload
    exact ⟨ts, mem, swap, ps, sps, rfl, rfl, rfl, rfl, by rw [← hp, hzip],
      by rw [← hs, hzip]⟩
  · rw [perFileData] at hdata
    cases h1 : getCol f "timestamp" <;> rw [h1] at hdata
    case none => simp at hdata
    case some ts =>
    cases h2 : getCol f "active_anon" <;> rw [h2] at hdata
    case none => simp at hdata
    case some aa =>
    cases h3 : getCol f "inactive_anon" <;> rw [h3] at hdata
    case none => simp at hdata
    case some ia =>
    cases h4 : getCol f "active_file" <;> rw [h4] at hdata
    case none => simp at hdata
    case some af =>
    cases h5 : getCol f "inactive_file" <;> rw [h5] at hdata
    case none => simp at hdata
    case some ifl =>
    simp only [Option.bind_eq_bind, Option.some_bind, Option.some.injEq] at hdata
    exact ⟨aa, rfl, by rw [← hdata]⟩

/-- C4: with zero CSV files the loading loop succeeds with empty pools, the
`zip(*all_points)` unpack fails on the empty collection, and the run dies
having written nothing — in particular `mem_swap_vs_time.png` is never
produced. -/
theorem empty_dir_fails :
    ∀ dir : String,
      loadLoop ([] : List CsvFile) = some ([], [])
      ∧ unzipStar [] = none
      ∧ runScript dir [] = ⟨[], false⟩ :=
  fun _ => ⟨rfl, rfl, rfl⟩

/-- Witness for C3, at one concrete two-row file. -/
theorem conversion_before_pooling_witness :
    loadLoop [twoRowFile] = some ([(0, 1), (1, 2)], [(0, 0), (1, 1)])
    ∧ perFileData twoRowFile = some ⟨[0, 1], [0, 0], [0, 0], [0, 0], [0, 0]⟩
    ∧ bytesToMB 1048576 = 1 := by
  have h1 : getCol twoRowFile "timestamp" = some [0, 1] := by decide
  have h2 : getCol twoRowFile "current_memory_usage" = some [1048576, 2097152] := by
    decide
  have h3 : getCol twoRowFile "current_swap_usage" = some [0, 1048576] := by decide
  have h4 : getCol twoRowFile "active_anon" = some [0, 0] := by decide
  have h5 : getCol twoRowFile "inactive_anon" = some [0, 0] := by decide
  have h6 : getCol twoRowFile "active_file" = some [0, 0] := by decide
  have h7 : getCol twoRowFile "inactive_file" = some [0, 0] := by decide
  have hload : loadLoop [twoRowFile] = some ([(0, 1), (1, 2)], [(0, 0), (1, 1)]) := by
    norm_num [loadLoop, h1, h2, h3, bytesToMB, List.zip]
  have hdata : perFileData twoRowFile
      = some ⟨[0, 1], [0, 0], [0, 0], [0, 0], [0, 0]⟩ := by
    norm_num [perFileData, h1, h4, h5, h6, h7, bytesToMB]
  exact ⟨hload, hdata,
    (conversion_before_pooling twoRowFile [] _ _ _ hload hdata).1⟩

/-- C5: whenever the run completes, the images written are exactly the
combined chart followed by one `<stem>_active_inactive.png` per input file, so
the number of per-file images equals the number of input files. -/
theorem per_file_image_per_input (dir : String) (files : List CsvFile)
    (h : (runScript dir files).ok = true) :
    (runScript dir files).written = memSwapImg dir :: files.map activeInactiveImg
    ∧ (files.map activeInactiveImg).length = files.length := by
  refine ⟨?_, by simp⟩
  rcases hl : loadLoop files with _ | ⟨pts, spts⟩
  · rw [runScript_of_load_none dir files hl] at h
    cases h
  · rcases pts with _ | ⟨a, l⟩
    · rw [runScript_of_empty dir files _ _ hl (Or.inl rfl)] at h
      cases h
    · rcases spts with _ | ⟨b, m⟩
      · rw [runScript_of_empty dir files _ _ hl (Or.inr rfl)] at h
        cases h
      · have hrun := runScript_eq_perFileLoop dir files _ _ hl (by simp) (by simp)
        rw [hrun] at h ⊢
        rw [perFileLoop_ok_written files _ h]
        rfl

/-- Witness for C5, at one concrete well-formed file. -/
theorem per_file_image_per_input_witness :
    (runScript "." [twoRowFile]).ok = true
    ∧ ((runScript "." [twoRowFile]).written
        = memSwapImg "." :: [twoRowFile].map activeInactiveImg
      ∧ ([twoRowFile].map activeInactiveImg).length = [twoRowFile].length) :=
  ⟨by decide, per_file_image_per_input "." [twoRowFile] (by decide)⟩

/-- C6: a timestamp appears among the x-values of the aggregated mean series
exactly when it occurs in the pooled samples — timestamps in no input sample
get no aggregate entry (no implicit zero-fill). -/
theorem no_implicit_zero_fill :
    ∀ (pts : List (ℚ × ℚ)) (t : ℚ),
      t ∈ (meanByTimestamp pts).map Prod.fst ↔ t ∈ pts.map Prod.fst :=
  mem_map_fst_meanByTimestamp

/-- C7: the run reads the seven required columns, and if any of them is
missing from any input file the run ends with an uncaught error — no default
is substituted. -/
theorem missing_column_fails (dir : String) (files : List CsvFile) (f : CsvFile)
    (c : String) (hf : f ∈ files) (hc : c ∈ requiredCols)
    (h : getCol f c = none) : (runScript dir files).ok = false := by
  rcases hres : loadLoop files with _ | ⟨pts, spts⟩
  · rw [runScript_of_load_none dir files hres]
  · have hok := colsOk_of_loadLoop files _ hres f hf
    simp only [colsOk, Bool.and_eq_true, Option.isSome_iff_exists] at hok
    obtain ⟨⟨⟨ts, hts⟩, mem, hmem⟩, swap, hswap⟩ := hok
    simp only [requiredCols, List.mem_cons, List.not_mem_nil, or_false] at hc
    rcases hc with rfl | rfl | rfl | rfl | rfl | rfl | rfl
    · rw [hts] at h; cases h
    · rw [hmem] at h; cases h
    · rw [hswap] at h; cases h
    all_goals {
      have hnone := perFileData_none_of_missing f _ (by decide) h
      rcases pts with _ | ⟨a, l⟩
      · rw [runScript_of_empty dir files _ _ hres (Or.inl rfl)]
      · rcases spts with _ | ⟨b, m⟩
        · rw [runScript_of_empty dir files _ _ hres (Or.inr rfl)]
        · rw [runScript_eq_perFileLoop dir files _ _ hres (by simp) (by simp)]
          exact perFileLoop_ok_false files _ f hf hnone
    }

/-- Witness for C7, at a file missing its `active_anon` column. -/
theorem missing_column_fails_witness :
    noAnonFile ∈ [noAnonFile]
    ∧ "active_anon" ∈ requiredCols
    ∧ getCol noAnonFile "active_anon" = none
    ∧ (runScript "." [noAnonFile]).ok = false :=
  ⟨List.mem_singleton_self _, by decide, by decide,
   missing_column_fails "." [noAnonFile] noAnonFile "active_anon"
     (List.mem_singleton_self _) (by decide) (by decide)⟩

/-- C8: the combined chart is saved before the per-file pass; when the pools
load nonempty and some file lacks one of the four active/inactive columns, the
run dies in the per-file pass with `mem_swap_vs_time.png` already written as
the first persisted image. -/
theorem combined_chart_persists_on_late_failure (dir : String)
    (files : List CsvFile) (pts spts : List (ℚ × ℚ)) (f : CsvFile) (c : String)
    (hload : loadLoop files = some (pts, spts)) (hpts : pts ≠ [])
    (hspts : spts ≠ []) (hf : f ∈ files)
    (hc : c ∈ ["active_anon", "inactive_anon", "active_file", "inactive_file"])
    (h : getCol f c = none) :
    (runScript dir files).ok = false
    ∧ (runScript dir files).written.head? = some (memSwapImg dir) := by
  have hrun := runScript_eq_perFileLoop dir files pts spts hload hpts hspts
  have hnone : perFileData f = none :=
    perFileData_none_of_missing f c (List.mem_cons_of_mem _ hc) h
  constructor
  · rw [hrun]
    exact perFileLoop_ok_false files _ f hf hnone
  · rw [hrun]
    obtain ⟨ext, hext⟩ := perFileLoop_written files [memSwapImg dir]
    rw [hext]
    rfl

/-- Witness for C8, at a file with data rows but no `active_anon` column. -/
theorem combined_chart_persists_on_late_failure_witness :
    loadLoop [noAnonFile] = some ([(0, 2)], [(0, 1)])
    ∧ getCol noAnonFile "active_anon" = none
    ∧ ((runScript "." [noAnonFile]).ok = false
       ∧ (runScript "." [noAnonFile]).written.head? = some (memSwapImg ".")) := by
  have h1 : getCol noAnonFile "timestamp" = some [0] := by decide
  have h2 : getCol noAnonFile "current_memory_usage" = some [2097152] := by decide
  have h3 : getCol noAnonFile "current_swap_usage" = some [1048576] := by decide
  have hload : loadLoop [noAnonFile] = some ([(0, 2)], [(0, 1)]) := by
    norm_num [loadLoop, h1, h2, h3, bytesToMB, List.zip]
  exact ⟨hload, by decide,
    combined_chart_persists_on_late_failure "." [noAnonFile] _ _ noAnonFile
      "active_anon" hload (by simp) (by simp) (List.mem_singleton_self _)
      (by decide) (by decide)⟩

/-- C9: once loading has succeeded on rectangular files, the combined-chart
step dies on the empty-collection unpack exactly when the pooled memory sample
list is empty — which covers files that are present but have zero data rows,
not only an empty directory. -/
theorem combined_unpack_fails_iff_empty_pool (dir : String)
    (files : List CsvFile) (pts spts : List (ℚ × ℚ))
    (hrect : ∀ f ∈ files, Rectangular f)
    (hload : loadLoop files = some (pts, spts)) :
    runScript dir files = ⟨[], false⟩ ↔ pts = [] := by
  constructor
  · intro hr
    by_contra hne
    rcases pts with _ | ⟨a, l⟩
    · exact hne rfl
    · have hlen := loadLoop_length files _ _ hrect hload
      have hs : spts ≠ [] := by
        intro hsnil
        rw [hsnil] at hlen
        simp at hlen
      rw [runScript_eq_perFileLoop dir files _ _ hload (by simp) hs] at hr
      obtain ⟨ext, hext⟩ := perFileLoop_written files [memSwapImg dir]
      have hnil : (perFileLoop files [memSwapImg dir]).written = [] := by rw [hr]
      rw [hext] at hnil
      simp at hnil
  · intro h
    exact runScript_of_empty dir files pts spts hload (Or.inl h)

/-- Witness for C9, at a nonempty directory whose single file has zero rows. -/
theorem combined_unpack_fails_iff_empty_pool_witness :
    loadLoop [emptyRowsFile] = some ([], [])
    ∧ [emptyRowsFile].length = 1
    ∧ runScript "." [emptyRowsFile] = ⟨[], false⟩ := by
  have hrect : ∀ f ∈ [emptyRowsFile], Rectangular f := by
    unfold Rectangular
    decide
  have hload : loadLoop [emptyRowsFile] = some ([], []) := by decide
  exact ⟨hload, rfl,
    (combined_unpack_fails_iff_empty_pool "." [emptyRowsFile] [] [] hrect
      hload).mpr rfl⟩

/-- C10: over exact rational arithmetic, the aggregated mean series for memory
and for swap do not depend on the order in which the files are enumerated and
pooled. -/
theorem mean_series_order_independent (files₁ files₂ : List CsvFile)
    (hperm : List.Perm files₁ files₂) :
    memMeanSeries files₁ = memMeanSeries files₂
    ∧ swapMeanSeries files₁ = swapMeanSeries files₂ := by
  by_cases hall : ∀ f ∈ files₁, colsOk f = true
  · have hall₂ : ∀ f ∈ files₂, colsOk f = true := fun f hf =>
      hall f (hperm.mem_iff.2 hf)
    constructor
    · rw [memMeanSeries, memMeanSeries, loadLoop_of_colsOk files₁ hall,
        loadLoop_of_colsOk files₂ hall₂, Option.map_some', Option.map_some']
      exact congrArg some (meanByTimestamp_perm (hperm.flatMap_right memContrib))
    · rw [swapMeanSeries, swapMeanSeries, loadLoop_of_colsOk files₁ hall,
        loadLoop_of_colsOk files₂ hall₂, Option.map_some', Option.map_some']
      exact congrArg some (meanByTimestamp_perm (hperm.flatMap_right swapContrib))
  · have h₁ : loadLoop files₁ = none := by
      cases hres : loadLoop files₁ with
      | none => rfl
      | some res => exact absurd (colsOk_of_loadLoop files₁ res hres) hall
    have h₂ : loadLoop files₂ = none := by
      cases hres : loadLoop files₂ with
      | none => rfl
      | some res =>
        exact absurd
          (fun f hf => colsOk_of_loadLoop files₂ res hres f (hperm.mem_iff.1 hf))
          hall
    constructor <;> simp [memMeanSeries, swapMeanSeries, h₁, h₂]

/-- Witness for C10, at two concrete files in both enumeration orders. -/
theorem mean_series_order_independent_witness :
    memMeanSeries [twoRowFile, otherFile] = memMeanSeries [otherFile, twoRowFile]
    ∧ swapMeanSeries [twoRowFile, otherFile]
        = swapMeanSeries [otherFile, twoRowFile] :=
  mean_series_order_independent [twoRowFile, otherFile] [otherFile, twoRowFile]
    (List.Perm.swap otherFile twoRowFile [])
